import Mathlib

/-!
Verification of the Acquisition & Frame-Synchronization Subsystem of the
TCD1304 CCD host application (`lgplot`).

The development shallowly embeds the receiver logic of
`src/lgplot/src/connection.cpp` together with the shared application state
of `app_state.h` and the connection-management logic of the controls panel:

* the USB serial framing state machine of `usb_receiver_thread`
  (frame-start marker `0x11`, pixel records `0xA5 lo hi 0x5A`,
  byte-at-a-time resynchronization, index guard, publish-on-frame-start);
* the UDP datagram validation and decode of `udp_receiver_thread`
  (13-byte packed header, magic `0xAA`, pixel-count bound);
* the start/stop lifecycle (`start_usb_receiver`, `start_udp_receiver`,
  `stop_receiver`) and the controls-panel gating on `connection_mode`;
* the opportunistic 1-second statistics tick.

Samples travel as 16-bit values; the C++ stores them in `float` arrays,
where every 16-bit integer is represented exactly, so samples are modelled
as `Nat`.  The statistics rate is a C++ `float`; it is modelled as `ℚ`
(the spec reads rates "up to rounding").
-/

namespace TCD1304

/-- `config.h`: number of CCD pixels per frame. -/
def CCD_PIXEL_COUNT : Nat := 3694

/-- `config.h`: serial frame-start marker byte. -/
def USB_FRAME_START : Nat := 0x11

/-- `config.h`: serial pixel-record start byte. -/
def USB_PIXEL_START : Nat := 0xA5

/-- `config.h`: serial pixel-record end byte. -/
def USB_PIXEL_END : Nat := 0x5A

/-- `usb_receiver_thread`: capacity of the rolling byte window
(`std::vector<uint8_t> buffer(16384)`). -/
def USB_BUFFER_CAPACITY : Nat := 16384

/-- `connection.cpp` line 144: `uint16_t pixel_value = low_byte | (high_byte << 8)`.
The operands are promoted to `int` and the result truncated to 16 bits. -/
def pixelValue (lo hi : Nat) : Nat := (Nat.lor lo (hi <<< 8)) % 65536

/-- `connection.cpp` lines 128-136: advance `start` past bytes that are not
`USB_PIXEL_START`, then shift the window so the first candidate start byte
is at offset 0 (`memmove`). -/
def dropToStart : List Nat → List Nat
  | [] => []
  | b :: rest => if b = USB_PIXEL_START then b :: rest else dropToStart rest

/-- `usb_receiver_thread` lines 127-158: the inner `while (buffer_pos >= 4)`
scan loop, written with explicit fuel.  Each loop iteration removes at least
one byte from the window, so `buf.length` units of fuel always suffice
(`drainBuffer` below supplies exactly that); a fuel-exhausted return can
therefore only happen on an empty window, where it coincides with the
loop-exit return.  Returns the final window, pixel index, and pixel array. -/
def drainFuel : Nat → List Nat → Nat → List Nat → List Nat × Nat × List Nat
  | 0, buf, pix, temp => (buf, pix, temp)
  | fuel + 1, buf, pix, temp =>
    if 4 ≤ buf.length then
      match dropToStart buf with
      | a :: b1 :: b2 :: b3 :: rest =>
        if a = USB_PIXEL_START ∧ b3 = USB_PIXEL_END then
          -- lines 141-153: a validated record is consumed; the store is
          -- guarded by `pixel_index < CCD_PIXEL_COUNT`.
          if pix < CCD_PIXEL_COUNT then
            drainFuel fuel rest (pix + 1) (temp.set pix (pixelValue b1 b2))
          else
            drainFuel fuel rest pix temp
        else
          -- lines 154-157: discard one leading byte and retry.
          drainFuel fuel (b1 :: b2 :: b3 :: rest) pix temp
      | short => (short, pix, temp)   -- line 138: `if (buffer_pos < 4) break;`
    else (buf, pix, temp)

/-- The inner scan loop of `usb_receiver_thread` on a window `buf`. -/
def drainBuffer (buf : List Nat) (pix : Nat) (temp : List Nat) :
    List Nat × Nat × List Nat :=
  drainFuel buf.length buf pix temp

/-- `usb_receiver_thread` lines 106-108: the publish copy loop after `n`
iterations (`for (int i = 0; i < n; i++) dst[i] = src[i];`). -/
def copyN (src : List Nat) : Nat → List Nat → List Nat
  | 0, dst => dst
  | n + 1, dst => (copyN src n dst).set n (src.getD n 0)

/-- `usb_receiver_thread` lines 106-108: copy
`for (i = 0; i < pixel_index && i < CCD_PIXEL_COUNT; i++)` from the
thread-local pixel array into the shared sample array. -/
def publishCopy (temp spectrum : List Nat) (pix : Nat) : List Nat :=
  copyN temp (min pix CCD_PIXEL_COUNT) spectrum

/-- State of the USB serial decoder thread together with the shared slot it
publishes to: the locals of `usb_receiver_thread` (`buffer`/`buffer_pos`,
`pixel_index`, `receiving_frame`, `temp_pixels`) plus the shared
`g_app.spectrum_data` and `g_app.packets_received`.  `last_frame_pixels`
records the `pixel_index` reported at the most recent publish
(the "Frame complete: %d pixels" log line / the copy bound). -/
structure UsbState where
  buffer : List Nat
  pixel_index : Nat
  receiving_frame : Bool
  temp_pixels : List Nat
  spectrum_data : List Nat
  packets_received : Nat
  last_frame_pixels : Nat
deriving DecidableEq

/-- Initial state: fresh thread locals (lines 77-86) over the shared state
built by `AppState::AppState` (`spectrum_data.resize(CCD_PIXEL_COUNT, 0.0f)`,
`packets_received{0}`). -/
def initUsbState : UsbState :=
  { buffer := []
    pixel_index := 0
    receiving_frame := false
    temp_pixels := List.replicate CCD_PIXEL_COUNT 0
    spectrum_data := List.replicate CCD_PIXEL_COUNT 0
    packets_received := 0
    last_frame_pixels := 0 }

/-- One iteration of the `usb_receiver_thread` loop body for one received
byte (lines 98-158): append the byte to the window (capacity permitting);
on `USB_FRAME_START` publish the in-progress frame if it holds at least one
pixel and then reset; outside a frame discard the window; inside a frame run
the record-scan loop. -/
def usbStep (s : UsbState) (byte : Nat) : UsbState :=
  let s1 := if s.buffer.length < USB_BUFFER_CAPACITY
    then { s with buffer := s.buffer ++ [byte] } else s
  if byte = USB_FRAME_START then
    let s2 :=
      if s1.receiving_frame ∧ 0 < s1.pixel_index then
        { s1 with
          spectrum_data :=
            publishCopy s1.temp_pixels s1.spectrum_data s1.pixel_index
          packets_received := s1.packets_received + 1
          last_frame_pixels := s1.pixel_index }
      else s1
    { s2 with receiving_frame := true, pixel_index := 0, buffer := [] }
  else if s1.receiving_frame then
    let r := drainBuffer s1.buffer s1.pixel_index s1.temp_pixels
    { s1 with buffer := r.1, pixel_index := r.2.1, temp_pixels := r.2.2 }
  else
    { s1 with buffer := [] }   -- lines 122-125: not in a frame, discard.

/-- Run the USB decoder over a byte sequence from a given state. -/
def usbRunFrom (s : UsbState) (bytes : List Nat) : UsbState :=
  bytes.foldl usbStep s

/-- Run the USB decoder over a byte sequence from the initial state. -/
def usbRun (bytes : List Nat) : UsbState :=
  usbRunFrom initUsbState bytes

/-- Serial wire encoding of a list of pixel records, each given as its
(low byte, high byte) pair:  `0xA5, lo, hi, 0x5A` per record. -/
def recordBytes : List (Nat × Nat) → List Nat
  | [] => []
  | (lo, hi) :: rs =>
      USB_PIXEL_START :: lo :: hi :: USB_PIXEL_END :: recordBytes rs

/-- The value the decoder assembles for a record `(lo, hi)`. -/
def recordValue (p : Nat × Nat) : Nat := pixelValue p.1 p.2

-- ============================================
-- UDP receiver
-- ============================================

/-- `sizeof(UdpPacketHeader)` under `#pragma pack(1)`:
1 + 4 + 4 + 2 + 2 bytes. -/
def UDP_HEADER_SIZE : Nat := 13

/-- Little-endian 16-bit read at byte offset `off` (x86 layout of the
packed struct / `uint16_t` pixel array). -/
def le16 (d : List Nat) (off : Nat) : Nat :=
  d.getD off 0 + 256 * d.getD (off + 1) 0

/-- Little-endian 32-bit read at byte offset `off`. -/
def le32 (d : List Nat) (off : Nat) : Nat :=
  d.getD off 0 + 256 * d.getD (off + 1) 0 + 65536 * d.getD (off + 2) 0 +
    16777216 * d.getD (off + 3) 0

/-- Shared state touched by `udp_receiver_thread`. -/
structure UdpState where
  spectrum_data : List Nat
  packets_received : Nat
  last_sequence : Nat
deriving DecidableEq

/-- `udp_receiver_thread` lines 225-227 after `n` iterations: ascending copy
of the datagram's 16-bit pixel values into the shared sample array.  Bytes
beyond the received datagram are modelled as 0 (the C++ reads whatever the
reused receive buffer holds there; no claim depends on those values). -/
def udpWriteN (dgram : List Nat) : Nat → List Nat → List Nat
  | 0, sp => sp
  | n + 1, sp =>
      (udpWriteN dgram n sp).set n (le16 dgram (UDP_HEADER_SIZE + 2 * n))

/-- `udp_receiver_thread` lines 215-233: processing of one received datagram.
A datagram shorter than the header, or whose first byte is not `0xAA`, or
whose declared `pixel_count` exceeds `CCD_PIXEL_COUNT`, is dropped without
touching any shared state; otherwise `pixel_count` pixels are copied,
`packets_received` is incremented and `last_sequence` is set to the header's
sequence number. -/
def udpProcess (st : UdpState) (dgram : List Nat) : UdpState :=
  if UDP_HEADER_SIZE ≤ dgram.length then
    if dgram.getD 0 0 = 0xAA then
      if le16 dgram 9 ≤ CCD_PIXEL_COUNT then
        { spectrum_data := udpWriteN dgram (le16 dgram 9) st.spectrum_data
          packets_received := st.packets_received + 1
          last_sequence := le32 dgram 1 }
      else st
    else st
  else st

end TCD1304

namespace TCD1304

-- ============================================
-- Evaluation lemmas for the serial scan loop
-- ============================================

theorem dropToStart_cons_start (l : List Nat) :
    dropToStart (USB_PIXEL_START :: l) = USB_PIXEL_START :: l := by
  simp [dropToStart]

theorem dropToStart_cons_skip (b : Nat) (l : List Nat)
    (h : b ≠ USB_PIXEL_START) : dropToStart (b :: l) = dropToStart l := by
  simp [dropToStart, h]

theorem drainFuel_of_short (fuel pix : Nat) (buf temp : List Nat)
    (h : ¬ 4 ≤ buf.length) : drainFuel fuel buf pix temp = (buf, pix, temp) := by
  cases fuel <;> simp [drainFuel, h]

theorem drainBuffer_of_short (pix : Nat) (buf temp : List Nat)
    (h : ¬ 4 ≤ buf.length) : drainBuffer buf pix temp = (buf, pix, temp) :=
  drainFuel_of_short _ _ _ _ h

/-- A well-aligned record at the head of the window is consumed whole;
the store is guarded by the pixel-count bound. -/
theorem drainBuffer_record (lo hi pix : Nat) (temp : List Nat) :
    drainBuffer [USB_PIXEL_START, lo, hi, USB_PIXEL_END] pix temp =
      if pix < CCD_PIXEL_COUNT then
        ([], pix + 1, temp.set pix (pixelValue lo hi))
      else ([], pix, temp) := by
  by_cases h : pix < CCD_PIXEL_COUNT <;>
    simp [drainBuffer, drainFuel, dropToStart, h]

/-- A 4-byte window with no start marker anywhere is discarded whole. -/
theorem drainBuffer_no_start (x y z w pix : Nat) (temp : List Nat)
    (hx : x ≠ USB_PIXEL_START) (hy : y ≠ USB_PIXEL_START)
    (hz : z ≠ USB_PIXEL_START) (hw : w ≠ USB_PIXEL_START) :
    drainBuffer [x, y, z, w] pix temp = ([], pix, temp) := by
  simp [drainBuffer, drainFuel, dropToStart, hx, hy, hz, hw]

/-- A window starting with the start marker but whose fourth byte is not the
end marker loses exactly one leading byte. -/
theorem drainBuffer_bad_end (lo hi c pix : Nat) (temp : List Nat)
    (hc : c ≠ USB_PIXEL_END) :
    drainBuffer [USB_PIXEL_START, lo, hi, c] pix temp =
      ([lo, hi, c], pix, temp) := by
  have h4 : ¬ 4 ≤ ([lo, hi, c] : List Nat).length := by simp
  simp [drainBuffer, drainFuel, dropToStart, hc, h4]

/-- Garbage bytes before a start marker are discarded and the window
re-synchronizes on that marker. -/
theorem drainBuffer_resync (x y z pix : Nat) (temp : List Nat)
    (hx : x ≠ USB_PIXEL_START) (hy : y ≠ USB_PIXEL_START)
    (hz : z ≠ USB_PIXEL_START) :
    drainBuffer [x, y, z, USB_PIXEL_START] pix temp =
      ([USB_PIXEL_START], pix, temp) := by
  simp [drainBuffer, drainFuel, dropToStart, hx, hy, hz]

-- ============================================
-- Evaluation lemmas for one loop iteration
-- ============================================

/-- A data byte received while a frame is in progress: the window grows by
one byte and the scan loop runs. -/
theorem usbStep_data (s : UsbState) (b : Nat) (hb : b ≠ USB_FRAME_START)
    (hrecv : s.receiving_frame = true)
    (hcap : s.buffer.length < USB_BUFFER_CAPACITY) :
    usbStep s b =
      { s with
        buffer := (drainBuffer (s.buffer ++ [b]) s.pixel_index s.temp_pixels).1
        pixel_index := (drainBuffer (s.buffer ++ [b]) s.pixel_index s.temp_pixels).2.1
        temp_pixels := (drainBuffer (s.buffer ++ [b]) s.pixel_index s.temp_pixels).2.2 } := by
  simp [usbStep, hb, hrecv, hcap]

/-- The frame-start byte when at least one pixel has been accumulated:
publish, then reset for the next frame. -/
theorem usbStep_start_publish (s : UsbState)
    (hrecv : s.receiving_frame = true) (hpix : 0 < s.pixel_index)
    (hcap : s.buffer.length < USB_BUFFER_CAPACITY) :
    usbStep s USB_FRAME_START =
      { s with
        buffer := []
        pixel_index := 0
        receiving_frame := true
        spectrum_data := publishCopy s.temp_pixels s.spectrum_data s.pixel_index
        packets_received := s.packets_received + 1
        last_frame_pixels := s.pixel_index } := by
  simp [usbStep, hrecv, hpix, hcap]

/-- The frame-start byte with no accumulated pixel: no publish, just reset. -/
theorem usbStep_start_fresh (s : UsbState) (hpix : s.pixel_index = 0)
    (hcap : s.buffer.length < USB_BUFFER_CAPACITY) :
    usbStep s USB_FRAME_START =
      { s with buffer := [], pixel_index := 0, receiving_frame := true } := by
  simp [usbStep, hpix, hcap]

/-- Any non-frame-start byte received while no frame is in progress is
discarded. -/
theorem usbStep_idle (s : UsbState) (b : Nat) (hb : b ≠ USB_FRAME_START)
    (hrecv : s.receiving_frame = false)
    (hcap : s.buffer.length < USB_BUFFER_CAPACITY) :
    usbStep s b = { s with buffer := [] } := by
  simp [usbStep, hb, hrecv, hcap]

theorem usbRunFrom_cons (s : UsbState) (b : Nat) (bytes : List Nat) :
    usbRunFrom s (b :: bytes) = usbRunFrom (usbStep s b) bytes := rfl

theorem usbRunFrom_nil (s : UsbState) : usbRunFrom s [] = s := rfl

theorem usbRunFrom_append (s : UsbState) (xs ys : List Nat) :
    usbRunFrom s (xs ++ ys) = usbRunFrom (usbRunFrom s xs) ys :=
  List.foldl_append ..

end TCD1304

namespace TCD1304

theorem drainBuffer_len1 (a pix : Nat) (temp : List Nat) :
    drainBuffer [a] pix temp = ([a], pix, temp) :=
  drainFuel_of_short _ _ _ _ (by simp)

theorem drainBuffer_len2 (a b pix : Nat) (temp : List Nat) :
    drainBuffer [a, b] pix temp = ([a, b], pix, temp) :=
  drainFuel_of_short _ _ _ _ (by simp)

theorem drainBuffer_len3 (a b c pix : Nat) (temp : List Nat) :
    drainBuffer [a, b, c] pix temp = ([a, b, c], pix, temp) :=
  drainFuel_of_short _ _ _ _ (by simp)

/-- Processing one well-aligned pixel record (whose data bytes are not the
frame-start marker) from an in-frame state with an empty window: the record
is consumed, and the sample is stored exactly when the index guard admits it. -/
theorem usbRunFrom_record (s : UsbState) (lo hi : Nat)
    (hlo : lo ≠ USB_FRAME_START) (hhi : hi ≠ USB_FRAME_START)
    (hrecv : s.receiving_frame = true) (hbuf : s.buffer = []) :
    usbRunFrom s [USB_PIXEL_START, lo, hi, USB_PIXEL_END] =
      if s.pixel_index < CCD_PIXEL_COUNT then
        { s with
          pixel_index := s.pixel_index + 1
          temp_pixels := s.temp_pixels.set s.pixel_index (pixelValue lo hi) }
      else s := by
  have hS : (USB_PIXEL_START : Nat) ≠ USB_FRAME_START := by decide
  have hE : (USB_PIXEL_END : Nat) ≠ USB_FRAME_START := by decide
  obtain ⟨buf, pix, rf, tp, sd, pr, lf⟩ := s
  simp only at hbuf hrecv
  subst hbuf hrecv
  by_cases hp : pix < CCD_PIXEL_COUNT <;>
    simp [usbRunFrom, List.foldl, usbStep, hS, hE, hlo, hhi, hp,
      drainBuffer_len1, drainBuffer_len2, drainBuffer_len3, drainBuffer_record,
      USB_BUFFER_CAPACITY]

end TCD1304

namespace TCD1304

/-- The state after the opening frame-start byte from the initial state. -/
theorem usbRun_open_frame :
    usbRunFrom initUsbState [USB_FRAME_START] =
      { initUsbState with receiving_frame := true } := by
  simp [usbRunFrom, List.foldl, usbStep, initUsbState, USB_BUFFER_CAPACITY]

/-- C2: serial bytes `11 A5 01 00 5A A5 02 00 5A 11` from the initial state
publish exactly one frame: 2 samples received, values 1 and 2 at indices 0
and 1, all other indices still holding the initial zeros; the trailing `11`
only opens a new frame (`receiving_frame` with no accumulated pixel and no
further publication). -/
theorem usb_concrete_scenario :
    usbRun [0x11, 0xA5, 0x01, 0x00, 0x5A, 0xA5, 0x02, 0x00, 0x5A, 0x11] =
      { buffer := []
        pixel_index := 0
        receiving_frame := true
        temp_pixels := ((List.replicate CCD_PIXEL_COUNT 0).set 0 1).set 1 2
        spectrum_data := ((List.replicate CCD_PIXEL_COUNT 0).set 0 1).set 1 2
        packets_received := 1
        last_frame_pixels := 2 } := by
  simp [usbRun, usbRunFrom, List.foldl, usbStep, initUsbState, drainBuffer,
    drainFuel, dropToStart, publishCopy, copyN, pixelValue,
    USB_BUFFER_CAPACITY, USB_FRAME_START, USB_PIXEL_START, USB_PIXEL_END,
    List.getD, List.getElem?_set,
    (show (0:Nat) < CCD_PIXEL_COUNT by decide),
    (show (1:Nat) < CCD_PIXEL_COUNT by decide),
    (show min 2 CCD_PIXEL_COUNT = 2 by decide),
    (show Nat.lor 1 0 % 65536 = 1 by decide),
    (show Nat.lor 2 0 % 65536 = 2 by decide)]

/-- C1 counterexample.  The claim quantifies over every well-formed sequence
of exactly K complete pixel records between two frame-start markers and
asserts exactly one published frame.  It fails at two concrete inputs:
`11 11` (K = 0: no publish happens, because publication requires at least
one accumulated pixel) and `11 A5 11 00 5A 11` (K = 1 with low byte `0x11`:
the data byte is taken as a frame-start marker, the record is destroyed and
again nothing is published, instead of one frame with one sample). -/
theorem usb_frame_decode_counterexample :
    (usbRun [0x11, 0x11]).packets_received = 0 ∧
    (usbRun [0x11, 0xA5, 0x11, 0x00, 0x5A, 0x11]).packets_received = 0 := by
  constructor <;>
    simp [usbRun, usbRunFrom, List.foldl, usbStep, initUsbState, drainBuffer,
      drainFuel, dropToStart, USB_BUFFER_CAPACITY, USB_FRAME_START,
      USB_PIXEL_START, USB_PIXEL_END]

/-- C7 counterexample.  Frame `11 | 00 00 A5 5A | A5 5A 00 5A | 11`: the
first record was `A5 00 A5 5A` with its start marker corrupted to `00`
(breaking the 4-byte pattern), the second record `A5 5A 00 5A` is intact
with value `0x5A | (0x00 << 8) = 90`.  The claim requires the corrupted
record to be skipped and the subsequent valid record decoded at index 0.
Instead, the leftover bytes `A5 5A` of the corrupted record combine with
the start of the valid record into the spurious window `A5 5A A5 5A`, which
validates and decodes 0xA55A = 42330; the frame is published with the single
sample 42330 rather than 90, so a subsequent valid record is misdecoded. -/
theorem usb_resync_counterexample :
    (usbRun [0x11, 0x00, 0x00, 0xA5, 0x5A, 0xA5, 0x5A, 0x00, 0x5A, 0x11]).packets_received = 1 ∧
    (usbRun [0x11, 0x00, 0x00, 0xA5, 0x5A, 0xA5, 0x5A, 0x00, 0x5A, 0x11]).last_frame_pixels = 1 ∧
    (usbRun [0x11, 0x00, 0x00, 0xA5, 0x5A, 0xA5, 0x5A, 0x00, 0x5A, 0x11]).spectrum_data.getD 0 0 = 42330 ∧
    pixelValue 0x5A 0x00 = 90 := by
  refine ⟨?_, ?_, ?_, by decide⟩ <;>
    simp [usbRun, usbRunFrom, List.foldl, usbStep, initUsbState, drainBuffer,
      drainFuel, dropToStart, publishCopy, copyN,
      USB_BUFFER_CAPACITY, USB_FRAME_START, USB_PIXEL_START, USB_PIXEL_END,
      List.getD, List.getElem?_set,
      (show (0:Nat) < CCD_PIXEL_COUNT by decide),
      (show min 1 CCD_PIXEL_COUNT = 1 by decide),
      (show pixelValue 0x5A 0xA5 = 42330 by decide)]

-- ============================================
-- Channel lifecycle (start/stop, controls panel)
-- ============================================

/-- `config.h`: `enum class ConnectionMode { None = 0, UDP, USB }`. -/
inductive ConnectionMode
  | None
  | UDP
  | USB
deriving DecidableEq

/-- The lifecycle-relevant fields of `AppState`: `connection_mode`,
`receiver_running`, and whether a receiver thread is live
(`receiver_thread.joinable()`). -/
structure Channel where
  connection_mode : ConnectionMode
  receiver_running : Bool
  thread_joinable : Bool
deriving DecidableEq

/-- `AppState` defaults: `connection_mode = None`,
`receiver_running{false}`, no thread. -/
def initChannel : Channel :=
  { connection_mode := ConnectionMode.None
    receiver_running := false
    thread_joinable := false }

/-- `start_usb_receiver` (connection.cpp lines 175-183).  `openOk` is the
environment's answer to `open_serial_port()` (`CreateFileA` succeeding and
the port being configured).  On failure nothing is touched and `false` is
returned; on success the running flag, mode and thread are set. -/
def start_usb_receiver (openOk : Bool) (ch : Channel) : Bool × Channel :=
  if openOk = false then (false, ch)
  else
    (true,
      { connection_mode := ConnectionMode.USB
        receiver_running := true
        thread_joinable := true })

/-- `start_udp_receiver` (connection.cpp lines 251-292).  `wsaOk`, `sockOk`
and `bindOk` are the environment's answers to `WSAStartup`, `socket` and
`bind`.  Each failure path cleans up and returns `false` without touching
the channel fields; only full success starts the receiver. -/
def start_udp_receiver (wsaOk sockOk bindOk : Bool) (ch : Channel) :
    Bool × Channel :=
  if wsaOk = false then (false, ch)
  else if sockOk = false then (false, ch)
  else if bindOk = false then (false, ch)
  else
    (true,
      { connection_mode := ConnectionMode.UDP
        receiver_running := true
        thread_joinable := true })

/-- `stop_receiver` (connection.cpp lines 297-314): clear the running flag,
join the thread, release the transport handle, and finish with
`connection_mode = None`. -/
def stop_receiver (_ch : Channel) : Channel :=
  { connection_mode := ConnectionMode.None
    receiver_running := false
    thread_joinable := false }

/-- The connection events the controls panel can generate. -/
inductive UiEvent
  | usbConnect (openOk : Bool)
  | udpConnect (wsaOk sockOk bindOk : Bool)
  | disconnect

/-- `draw_controls_panel` (ui_panels.cpp): when `connection_mode == None`
the panel offers only the two connect buttons; otherwise it offers only the
`Disconnect` button.  One user interaction therefore maps to this
transition function. -/
def controlsPanelStep (ch : Channel) (e : UiEvent) : Channel :=
  match e with
  | UiEvent.usbConnect ok =>
      if ch.connection_mode = ConnectionMode.None
      then (start_usb_receiver ok ch).2 else ch
  | UiEvent.udpConnect a b c =>
      if ch.connection_mode = ConnectionMode.None
      then (start_udp_receiver a b c ch).2 else ch
  | UiEvent.disconnect =>
      if ch.connection_mode ≠ ConnectionMode.None
      then stop_receiver ch else ch

-- ============================================
-- Statistics tick
-- ============================================

/-- The statistics state of either receiver thread: the local
`last_stats_time` (milliseconds) and `packets_since_last` counter, and the
shared `packets_per_second`.  The C++ rate is a `float`; it is modelled over
`ℚ` (the spec states the property "up to rounding"). -/
structure StatsState where
  last_stats_time : Nat
  packets_since_last : Nat
  packets_per_second : ℚ
deriving DecidableEq

/-- The end-of-iteration statistics check (connection.cpp lines 160-169 and
237-245): if at least 1000 ms elapsed since the window start, set
`packets_per_second = packets_since_last * 1000.0f / elapsed`, reset the
counter and move the window start to `now`. -/
def statsTick (st : StatsState) (now : Nat) : StatsState :=
  let elapsed := now - st.last_stats_time
  if 1000 ≤ elapsed then
    { last_stats_time := now
      packets_since_last := 0
      packets_per_second :=
        (st.packets_since_last : ℚ) * 1000 / (elapsed : ℚ) }
  else st

/-- A counted publish: `packets_since_last++` (lines 111 / 232). -/
def statsCountPublish (st : StatsState) : StatsState :=
  { st with packets_since_last := st.packets_since_last + 1 }

-- ============================================
-- Reader snapshot
-- ============================================

/-- A reader's view of the shared slot, taken under `data_mutex`
(e.g. `freeze_frame`: `snapshot_data = spectrum_data`) together with the
publication counter.  A total function: the reader never waits for a frame. -/
def snapshot (s : UsbState) : List Nat × Nat :=
  (s.spectrum_data, s.packets_received)

end TCD1304

namespace TCD1304

/-- C3: a UDP datagram that is shorter than the header, or has the wrong
magic byte, or declares more pixels than `CCD_PIXEL_COUNT`, is discarded:
the shared sample array, the publication counter and `last_sequence` are
all left untouched (and, `udpProcess` being total, no error is raised). -/
theorem udp_reject_malformed (st : UdpState) (dgram : List Nat)
    (h : dgram.length < UDP_HEADER_SIZE ∨ dgram.getD 0 0 ≠ 0xAA ∨
      CCD_PIXEL_COUNT < le16 dgram 9) :
    udpProcess st dgram = st := by
  unfold udpProcess
  by_cases hlen : UDP_HEADER_SIZE ≤ dgram.length
  · rw [if_pos hlen]
    by_cases hmagic : dgram.getD 0 0 = 0xAA
    · rw [if_pos hmagic]
      have hc : ¬ le16 dgram 9 ≤ CCD_PIXEL_COUNT := by
        rcases h with h | h | h
        · omega
        · exact absurd hmagic h
        · omega
      rw [if_neg hc]
    · rw [if_neg hmagic]
  · rw [if_neg hlen]

/-- Witness for C3: the one-byte datagram `0xAB` (too short and with the
wrong magic) leaves a concrete state unchanged. -/
theorem udp_reject_malformed_witness :
    udpProcess { spectrum_data := [7], packets_received := 5, last_sequence := 9 }
        [0xAB] =
      { spectrum_data := [7], packets_received := 5, last_sequence := 9 } :=
  udp_reject_malformed _ [0xAB] (Or.inl (by decide))

/-- C5: while a channel is active (`connection_mode ≠ None`, i.e. Streaming;
the synchronous `start` functions give the code no separate Connecting
state), no start can take effect: the controls panel only offers
Disconnect, so both connect events leave the state unchanged, and only
`stop_receiver` — which completes with `connection_mode = None` — re-enables
a start. -/
theorem channel_no_start_while_streaming (ch : Channel) (ok a b c : Bool)
    (h : ch.connection_mode ≠ ConnectionMode.None) :
    controlsPanelStep ch (UiEvent.usbConnect ok) = ch ∧
    controlsPanelStep ch (UiEvent.udpConnect a b c) = ch ∧
    (stop_receiver ch).connection_mode = ConnectionMode.None ∧
    (stop_receiver ch).receiver_running = false := by
  refine ⟨?_, ?_, rfl, rfl⟩ <;> simp [controlsPanelStep, h]

/-- Witness for C5 at a concrete streaming state. -/
theorem channel_no_start_while_streaming_witness :
    controlsPanelStep ⟨ConnectionMode.USB, true, true⟩ (UiEvent.usbConnect true) =
        ⟨ConnectionMode.USB, true, true⟩ ∧
    controlsPanelStep ⟨ConnectionMode.USB, true, true⟩
        (UiEvent.udpConnect true true true) = ⟨ConnectionMode.USB, true, true⟩ ∧
    (stop_receiver ⟨ConnectionMode.USB, true, true⟩).connection_mode =
        ConnectionMode.None ∧
    (stop_receiver ⟨ConnectionMode.USB, true, true⟩).receiver_running = false :=
  channel_no_start_while_streaming ⟨ConnectionMode.USB, true, true⟩ true true
    true true (by decide)

theorem usbStep_packets_mono (s : UsbState) (b : Nat) :
    s.packets_received ≤ (usbStep s b).packets_received := by
  unfold usbStep
  by_cases hcap : s.buffer.length < USB_BUFFER_CAPACITY <;>
    by_cases hb : b = USB_FRAME_START <;>
      simp [hcap, hb] <;> split <;> simp

theorem usbStep_spectrum_stable (s : UsbState) (b : Nat)
    (h : (usbStep s b).packets_received = s.packets_received) :
    (usbStep s b).spectrum_data = s.spectrum_data := by
  unfold usbStep at h ⊢
  by_cases hcap : s.buffer.length < USB_BUFFER_CAPACITY <;>
    by_cases hb : b = USB_FRAME_START <;>
      simp [hcap, hb] at h ⊢ <;> split at h <;> simp_all <;> split <;> simp_all

theorem usbRunFrom_packets_mono (bytes : List Nat) (s : UsbState) :
    s.packets_received ≤ (usbRunFrom s bytes).packets_received := by
  induction bytes generalizing s with
  | nil => exact Nat.le_refl _
  | cons b bs ih =>
      exact Nat.le_trans (usbStep_packets_mono s b) (ih (usbStep s b))

theorem usbRunFrom_spectrum_of_no_publish (bytes : List Nat) (s : UsbState)
    (h : (usbRunFrom s bytes).packets_received = s.packets_received) :
    (usbRunFrom s bytes).spectrum_data = s.spectrum_data := by
  induction bytes generalizing s with
  | nil => rfl
  | cons b bs ih =>
      have h1 := usbStep_packets_mono s b
      have h2 := usbRunFrom_packets_mono bs (usbStep s b)
      have hrun : usbRunFrom s (b :: bs) = usbRunFrom (usbStep s b) bs := rfl
      rw [hrun] at h ⊢
      have heq : (usbStep s b).packets_received = s.packets_received := by omega
      rw [ih (usbStep s b) (by omega), usbStep_spectrum_stable s b heq]

/-- C6: as long as no frame has been published (`packets_received = 0`),
the reader's `snapshot` is the slot's initial state: a sample array of
exactly `CCD_PIXEL_COUNT` entries, all zero, with publication count zero.
`snapshot` is a total function of the state — the reader never waits. -/
theorem snapshot_before_first_publish (bytes : List Nat)
    (h : (usbRun bytes).packets_received = 0) :
    snapshot (usbRun bytes) = (List.replicate CCD_PIXEL_COUNT 0, 0) ∧
    (List.replicate CCD_PIXEL_COUNT (0:Nat)).length = CCD_PIXEL_COUNT ∧
    ∀ x ∈ List.replicate CCD_PIXEL_COUNT (0:Nat), x = 0 := by
  refine ⟨?_, List.length_replicate .., fun x hx => List.eq_of_mem_replicate hx⟩
  have h0 : (usbRun bytes).packets_received = initUsbState.packets_received := h
  have hs := usbRunFrom_spectrum_of_no_publish bytes initUsbState h0
  simp [snapshot, usbRun] at hs ⊢
  exact ⟨hs, h⟩

/-- Witness for C6: before any byte arrives the snapshot is all zeros. -/
theorem snapshot_before_first_publish_witness :
    snapshot (usbRun []) = (List.replicate CCD_PIXEL_COUNT 0, 0) :=
  (snapshot_before_first_publish [] rfl).1

theorem statsCountPublish_iterate (n : Nat) (st : StatsState) :
    statsCountPublish^[n] st =
      { st with packets_since_last := st.packets_since_last + n } := by
  induction n with
  | zero => rfl
  | succ k ih =>
      rw [Function.iterate_succ_apply', ih]
      simp [statsCountPublish]
      omega

/-- C8: whenever the statistics check fires with `elapsed ≥ 1000` ms, the
rate becomes `count * 1000 / elapsed` — i.e. the publish count divided by
the elapsed time in seconds — and both the counter and the window start are
reset.  In particular `n` publishes counted over a window of exactly
1000 ms report a rate of `n`. -/
theorem stats_tick_rate (t0 now n c : Nat) (r : ℚ) (h : 1000 ≤ now - t0) :
    statsTick ⟨t0, c, r⟩ now =
      ⟨now, 0, (c : ℚ) * 1000 / ((now - t0 : Nat) : ℚ)⟩ ∧
    (c : ℚ) * 1000 / ((now - t0 : Nat) : ℚ) =
      (c : ℚ) / (((now - t0 : Nat) : ℚ) / 1000) ∧
    statsTick (statsCountPublish^[n] ⟨t0, 0, r⟩) (t0 + 1000) =
      ⟨t0 + 1000, 0, (n : ℚ)⟩ := by
  have hne : (((now - t0 : Nat) : ℚ)) ≠ 0 := by
    have : 0 < now - t0 := by omega
    exact_mod_cast Nat.pos_iff_ne_zero.mp this
  refine ⟨by simp [statsTick, h], by field_simp, ?_⟩
  rw [statsCountPublish_iterate]
  simp [statsTick]

/-- Witness for C8: 7 publishes in exactly one second report a rate of 7. -/
theorem stats_tick_rate_witness :
    statsTick (statsCountPublish^[7] ⟨0, 0, 0⟩) 1000 = ⟨1000, 0, (7 : ℚ)⟩ := by
  have h := (stats_tick_rate 0 1000 7 0 0 (by decide)).2.2
  simpa using h

/-- C9: `start` reports failure exactly when the transport cannot be
opened — `open_serial_port` failing for USB; `WSAStartup`, `socket` or
`bind` failing for UDP.  On failure the channel state is untouched (so a
stopped channel remains stopped, with no thread, `receiver_running = false`
and `connection_mode = None`); on success the channel is streaming: mode
set, running flag on, receiver thread live. -/
theorem start_result_semantics (ch : Channel) (ok a b c : Bool)
    (hrun : ch.receiver_running = false)
    (hmode : ch.connection_mode = ConnectionMode.None)
    (hthr : ch.thread_joinable = false) :
    ((start_usb_receiver ok ch).1 = ok) ∧
    ((start_usb_receiver ok ch).1 = false →
      (start_usb_receiver ok ch).2 = ch ∧
      (start_usb_receiver ok ch).2.receiver_running = false ∧
      (start_usb_receiver ok ch).2.connection_mode = ConnectionMode.None ∧
      (start_usb_receiver ok ch).2.thread_joinable = false) ∧
    ((start_usb_receiver ok ch).1 = true →
      (start_usb_receiver ok ch).2 =
        ⟨ConnectionMode.USB, true, true⟩) ∧
    ((start_udp_receiver a b c ch).1 = (a && b && c)) ∧
    ((start_udp_receiver a b c ch).1 = false →
      (start_udp_receiver a b c ch).2 = ch ∧
      (start_udp_receiver a b c ch).2.receiver_running = false ∧
      (start_udp_receiver a b c ch).2.connection_mode = ConnectionMode.None ∧
      (start_udp_receiver a b c ch).2.thread_joinable = false) ∧
    ((start_udp_receiver a b c ch).1 = true →
      (start_udp_receiver a b c ch).2 =
        ⟨ConnectionMode.UDP, true, true⟩) := by
  cases ok <;> cases a <;> cases b <;> cases c <;>
    simp [start_usb_receiver, start_udp_receiver, hrun, hmode, hthr]

/-- Witness for C9: from the initial (stopped) channel, a failed serial
open leaves the channel stopped, and a fully successful UDP start reports
success. -/
theorem start_result_semantics_witness :
    ((start_usb_receiver false initChannel).1 = false) ∧
    ((start_usb_receiver false initChannel).2 = initChannel) ∧
    ((start_udp_receiver true true true initChannel).1 = true) := by
  have h := start_result_semantics initChannel false true true true rfl rfl rfl
  exact ⟨h.1, (h.2.1 h.1).1, h.2.2.2.1⟩

theorem copyN_length (src : List Nat) (n : Nat) (dst : List Nat) :
    (copyN src n dst).length = dst.length := by
  induction n with
  | zero => rfl
  | succ k ih => simp [copyN, ih]

theorem udpWriteN_length (d : List Nat) (n : Nat) (sp : List Nat) :
    (udpWriteN d n sp).length = sp.length := by
  induction n with
  | zero => rfl
  | succ k ih => simp [udpWriteN, ih]

theorem udpWriteN_getElem_ge (d : List Nat) (n i : Nat) (sp : List Nat)
    (hi : n ≤ i) : (udpWriteN d n sp)[i]? = sp[i]? := by
  induction n with
  | zero => rfl
  | succ k ih =>
      have hki : k ≠ i := by omega
      simp [udpWriteN, List.getElem?_set, hki, ih (by omega)]

theorem drainFuel_bounds (fuel : Nat) (buf : List Nat) (pix : Nat)
    (temp : List Nat) (hpix : pix ≤ CCD_PIXEL_COUNT) :
    (drainFuel fuel buf pix temp).2.1 ≤ CCD_PIXEL_COUNT ∧
    (drainFuel fuel buf pix temp).2.2.length = temp.length := by
  induction fuel generalizing buf pix temp with
  | zero => exact ⟨hpix, rfl⟩
  | succ k ih =>
      unfold drainFuel
      split
      · split
        · rename_i a b1 b2 b3 rest heq
          split
          · split
            · rename_i hlt
              have h := ih rest (pix + 1)
                (temp.set pix (pixelValue b1 b2)) (by omega)
              simpa using h
            · exact ih rest pix temp hpix
          · exact ih (b1 :: b2 :: b3 :: rest) pix temp hpix
        · exact ⟨hpix, rfl⟩
      · exact ⟨hpix, rfl⟩

/-- The index and length invariant of the serial decoder state. -/
def UsbInv (s : UsbState) : Prop :=
  s.pixel_index ≤ CCD_PIXEL_COUNT ∧
  s.temp_pixels.length = CCD_PIXEL_COUNT ∧
  s.spectrum_data.length = CCD_PIXEL_COUNT

theorem usbStep_inv (s : UsbState) (b : Nat) (h : UsbInv s) :
    UsbInv (usbStep s b) := by
  obtain ⟨h1, h2, h3⟩ := h
  have hd : ∀ buf : List Nat,
      (drainBuffer buf s.pixel_index s.temp_pixels).2.1 ≤ CCD_PIXEL_COUNT ∧
      (drainBuffer buf s.pixel_index s.temp_pixels).2.2.length =
        CCD_PIXEL_COUNT := by
    intro buf
    have hb := drainFuel_bounds buf.length buf s.pixel_index s.temp_pixels h1
    exact ⟨hb.1, hb.2.trans h2⟩
  by_cases hcap : s.buffer.length < USB_BUFFER_CAPACITY <;>
    by_cases hb : b = USB_FRAME_START <;>
      by_cases hrecv : s.receiving_frame = true <;>
        by_cases hpix0 : 0 < s.pixel_index <;>
          simp [usbStep, UsbInv, hcap, hb, hrecv, hpix0, publishCopy,
            copyN_length, h1, h2, h3, hd]

theorem usbRunFrom_inv (bytes : List Nat) (s : UsbState) (h : UsbInv s) :
    UsbInv (usbRunFrom s bytes) := by
  induction bytes generalizing s with
  | nil => exact h
  | cons b bs ih => exact ih (usbStep s b) (usbStep_inv s b h)

/-- C10: every write of either decoder stays within the bounds of the
destination arrays.  For the serial decoder, `pixel_index` never exceeds
`CCD_PIXEL_COUNT` in any reachable state, and the thread-local and shared
arrays keep exactly `CCD_PIXEL_COUNT` entries (the publish copy is bounded
by `min pixel_index CCD_PIXEL_COUNT`).  For the UDP decoder, the shared
array keeps its `CCD_PIXEL_COUNT` entries and no index at or above the
validated declared `pixel_count` (≤ `CCD_PIXEL_COUNT`) is ever written. -/
theorem decoder_write_bounds (bytes : List Nat) (st : UdpState)
    (d : List Nat) (i : Nat)
    (hst : st.spectrum_data.length = CCD_PIXEL_COUNT) (hi : le16 d 9 ≤ i) :
    ((usbRun bytes).pixel_index ≤ CCD_PIXEL_COUNT ∧
      (usbRun bytes).temp_pixels.length = CCD_PIXEL_COUNT ∧
      (usbRun bytes).spectrum_data.length = CCD_PIXEL_COUNT) ∧
    (udpProcess st d).spectrum_data.length = CCD_PIXEL_COUNT ∧
    (udpProcess st d).spectrum_data[i]? = st.spectrum_data[i]? := by
  have husb : UsbInv (usbRun bytes) :=
    usbRunFrom_inv bytes initUsbState
      ⟨by decide, by simp [initUsbState], by simp [initUsbState]⟩
  have hlen2 : (udpProcess st d).spectrum_data.length = CCD_PIXEL_COUNT := by
    unfold udpProcess
    split
    · split
      · split
        · simp [udpWriteN_length, hst]
        · exact hst
      · exact hst
    · exact hst
  have hunt : (udpProcess st d).spectrum_data[i]? = st.spectrum_data[i]? := by
    unfold udpProcess
    split
    · split
      · split
        · simpa using udpWriteN_getElem_ge d (le16 d 9) i st.spectrum_data hi
        · rfl
      · rfl
    · rfl
  exact ⟨husb, hlen2, hunt⟩

/-- Witness for C10 at the empty byte stream, a fresh UDP state and the
empty datagram. -/
theorem decoder_write_bounds_witness :
    (usbRun []).pixel_index ≤ CCD_PIXEL_COUNT ∧
    (udpProcess ⟨List.replicate CCD_PIXEL_COUNT 0, 0, 0⟩ []).spectrum_data.length
      = CCD_PIXEL_COUNT := by
  have h := decoder_write_bounds [] ⟨List.replicate CCD_PIXEL_COUNT 0, 0, 0⟩ []
    0 (by simp) (by simp [le16])
  exact ⟨h.1.1, h.2.1⟩

theorem getD_append_lt (l1 l2 : List Nat) (i : Nat) (h : i < l1.length) :
    (l1 ++ l2).getD i 0 = l1.getD i 0 := by
  simp only [List.getD, List.get?_eq_getElem?, List.getElem?_append]
  rw [if_pos h]

theorem getD_append_len (l1 : List Nat) (v : Nat) :
    (l1 ++ [v]).getD l1.length 0 = v := by
  simp only [List.getD, List.get?_eq_getElem?, List.getElem?_append]
  rw [if_neg (by omega)]
  simp

theorem getD_map_recordValue (rs : List (Nat × Nat)) (i : Nat)
    (h : i < rs.length) :
    (rs.map recordValue).getD i 0 = recordValue (rs.getD i (0, 0)) := by
  simp only [List.getD, List.get?_eq_getElem?]
  rw [List.getElem?_eq_getElem (by simpa using h),
    List.getElem?_eq_getElem h]
  simp

/-- A corrupted record whose start marker was replaced by a byte that is
neither the frame-start nor the pixel-start marker (and whose data bytes are
no markers either) is discarded whole: the decoder state is unchanged apart
from the emptied window. -/
theorem run_corrupt_start (s : UsbState) (c lo hi : Nat)
    (hc17 : c ≠ USB_FRAME_START) (hcA : c ≠ USB_PIXEL_START)
    (hlo17 : lo ≠ USB_FRAME_START) (hloA : lo ≠ USB_PIXEL_START)
    (hhi17 : hi ≠ USB_FRAME_START) (hhiA : hi ≠ USB_PIXEL_START)
    (hrecv : s.receiving_frame = true) (hbuf : s.buffer = []) :
    usbRunFrom s [c, lo, hi, USB_PIXEL_END] = { s with buffer := [] } := by
  have hE : (USB_PIXEL_END : Nat) ≠ USB_FRAME_START := by decide
  have hEA : (USB_PIXEL_END : Nat) ≠ USB_PIXEL_START := by decide
  obtain ⟨buf, pix, rf, tp, sd, pr, lf⟩ := s
  simp only at hbuf hrecv
  subst hbuf hrecv
  simp [usbRunFrom, List.foldl, usbStep, hc17, hlo17, hhi17, hE,
    drainBuffer_len1, drainBuffer_len2, drainBuffer_len3,
    drainBuffer_no_start _ _ _ _ _ _ hcA hloA hhiA hEA,
    USB_BUFFER_CAPACITY]

/-- A corrupted record whose end marker was replaced by a byte other than
the pixel-end marker loses its leading start marker; its remaining three
bytes stay in the window. -/
theorem run_corrupt_end (s : UsbState) (lo hi c : Nat)
    (hlo17 : lo ≠ USB_FRAME_START) (hhi17 : hi ≠ USB_FRAME_START)
    (hc17 : c ≠ USB_FRAME_START) (hcE : c ≠ USB_PIXEL_END)
    (hrecv : s.receiving_frame = true) (hbuf : s.buffer = []) :
    usbRunFrom s [USB_PIXEL_START, lo, hi, c] =
      { s with buffer := [lo, hi, c] } := by
  have hS : (USB_PIXEL_START : Nat) ≠ USB_FRAME_START := by decide
  obtain ⟨buf, pix, rf, tp, sd, pr, lf⟩ := s
  simp only at hbuf hrecv
  subst hbuf hrecv
  simp [usbRunFrom, List.foldl, usbStep, hc17, hlo17, hhi17, hS,
    drainBuffer_len1, drainBuffer_len2, drainBuffer_len3,
    drainBuffer_bad_end _ _ _ _ _ hcE,
    USB_BUFFER_CAPACITY]

/-- A valid record arriving while three non-start-marker junk bytes sit in
the window: the junk is discarded when the record's start marker arrives
(resynchronization within 3 discarded bytes) and the record is then decoded
normally. -/
theorem run_record_after_junk (s : UsbState) (x y z lo hi : Nat)
    (hx : x ≠ USB_PIXEL_START) (hy : y ≠ USB_PIXEL_START)
    (hz : z ≠ USB_PIXEL_START)
    (hlo : lo ≠ USB_FRAME_START) (hhi : hi ≠ USB_FRAME_START)
    (hrecv : s.receiving_frame = true) (hbuf : s.buffer = [x, y, z]) :
    usbRunFrom s [USB_PIXEL_START, lo, hi, USB_PIXEL_END] =
      if s.pixel_index < CCD_PIXEL_COUNT then
        { s with
          buffer := []
          pixel_index := s.pixel_index + 1
          temp_pixels := s.temp_pixels.set s.pixel_index (pixelValue lo hi) }
      else { s with buffer := [] } := by
  have hS : (USB_PIXEL_START : Nat) ≠ USB_FRAME_START := by decide
  have hE : (USB_PIXEL_END : Nat) ≠ USB_FRAME_START := by decide
  obtain ⟨buf, pix, rf, tp, sd, pr, lf⟩ := s
  simp only at hbuf hrecv
  subst hbuf hrecv
  by_cases hp : pix < CCD_PIXEL_COUNT <;>
    simp [usbRunFrom, List.foldl, usbStep, hS, hE, hlo, hhi, hp,
      drainBuffer_len1, drainBuffer_len2, drainBuffer_len3,
      drainBuffer_resync _ _ _ _ _ hx hy hz, drainBuffer_record,
      USB_BUFFER_CAPACITY]

theorem getD_eq_getElem? (l : List Nat) (i : Nat) :
    l.getD i 0 = (l[i]?).getD 0 := by
  simp [List.getD]

theorem copyN_getElem (src dst : List Nat) (n i : Nat) (hn : n ≤ dst.length) :
    (copyN src n dst)[i]? = if i < n then some (src.getD i 0) else dst[i]? := by
  induction n with
  | zero => simp [copyN]
  | succ k ih =>
      simp only [copyN]
      rw [List.getElem?_set]
      by_cases hki : k = i
      · subst hki
        rw [if_pos rfl, if_pos (by rw [copyN_length]; omega), if_pos (by omega)]
      · rw [if_neg hki, ih (by omega)]
        by_cases hik : i < k
        · rw [if_pos hik, if_pos (by omega)]
        · rw [if_neg hik, if_neg (by omega)]

/-- The invariant of a frame in progress that has accumulated the sample
values `vals`: the decoder is inside a frame, its pixel index is the number
of accumulated samples clipped at the capacity, nothing has been published
yet, and the thread-local pixel array holds exactly the accumulated values
below the clipped index. -/
def Accum (s : UsbState) (vals : List Nat) : Prop :=
  s.receiving_frame = true ∧
  s.pixel_index = min vals.length CCD_PIXEL_COUNT ∧
  s.packets_received = 0 ∧
  s.spectrum_data = List.replicate CCD_PIXEL_COUNT 0 ∧
  s.temp_pixels.length = CCD_PIXEL_COUNT ∧
  ∀ j, j < min vals.length CCD_PIXEL_COUNT →
    s.temp_pixels[j]? = some (vals.getD j 0)

theorem accum_init :
    (usbRunFrom initUsbState [USB_FRAME_START]).buffer = [] ∧
    Accum (usbRunFrom initUsbState [USB_FRAME_START]) [] := by
  rw [usbRun_open_frame]
  exact ⟨rfl, rfl, by simp [initUsbState], rfl, rfl, by simp [initUsbState],
    by simp⟩

theorem accum_record (s : UsbState) (vals : List Nat) (lo hi : Nat)
    (ha : Accum s vals) (hbuf : s.buffer = [])
    (hlo : lo ≠ USB_FRAME_START) (hhi : hi ≠ USB_FRAME_START) :
    (usbRunFrom s [USB_PIXEL_START, lo, hi, USB_PIXEL_END]).buffer = [] ∧
    Accum (usbRunFrom s [USB_PIXEL_START, lo, hi, USB_PIXEL_END])
      (vals ++ [pixelValue lo hi]) := by
  obtain ⟨h1, h2, h3, h4, h5, h6⟩ := ha
  rw [usbRunFrom_record s lo hi hlo hhi h1 hbuf]
  by_cases hp : s.pixel_index < CCD_PIXEL_COUNT
  · rw [if_pos hp]
    refine ⟨hbuf, h1, ?_, h3, h4, ?_, ?_⟩
    · simp only [List.length_append, List.length_cons, List.length_nil]
      omega
    · simpa using h5
    · intro j hj
      simp only [List.length_append, List.length_cons, List.length_nil] at hj
      rw [List.getElem?_set]
      by_cases hje : s.pixel_index = j
      · rw [if_pos hje, if_pos (by omega)]
        have hjv : j = vals.length := by omega
        rw [hjv, getD_append_len]
      · rw [if_neg hje]
        have hjlt : j < vals.length := by omega
        rw [h6 j (by omega), getD_append_lt _ _ _ hjlt]
  · rw [if_neg hp]
    refine ⟨hbuf, h1, ?_, h3, h4, h5, ?_⟩
    · simp only [List.length_append, List.length_cons, List.length_nil]
      omega
    · intro j hj
      simp only [List.length_append, List.length_cons, List.length_nil] at hj
      rw [h6 j (by omega), getD_append_lt _ _ _ (by omega)]

theorem accum_records (rs : List (Nat × Nat)) (s : UsbState) (vals : List Nat)
    (ha : Accum s vals) (hbuf : s.buffer = [])
    (hdata : ∀ p ∈ rs, p.1 ≠ USB_FRAME_START ∧ p.2 ≠ USB_FRAME_START) :
    (usbRunFrom s (recordBytes rs)).buffer = [] ∧
    Accum (usbRunFrom s (recordBytes rs)) (vals ++ rs.map recordValue) := by
  induction rs generalizing s vals with
  | nil => simpa [recordBytes, usbRunFrom] using ⟨hbuf, ha⟩
  | cons r rs' ih =>
      obtain ⟨lo, hi⟩ := r
      have hsplit : recordBytes ((lo, hi) :: rs') =
          [USB_PIXEL_START, lo, hi, USB_PIXEL_END] ++ recordBytes rs' := rfl
      rw [hsplit, usbRunFrom_append]
      have hlo := (hdata (lo, hi) (by simp)).1
      have hhi := (hdata (lo, hi) (by simp)).2
      have hr := accum_record s vals lo hi ha hbuf hlo hhi
      have hrest := ih (usbRunFrom s [USB_PIXEL_START, lo, hi, USB_PIXEL_END])
        (vals ++ [pixelValue lo hi]) hr.2 hr.1
        (fun p hp => hdata p (by simp [hp]))
      simpa [recordValue, List.append_assoc] using hrest

theorem accum_publish (s : UsbState) (vals : List Nat)
    (ha : Accum s vals)
    (hcap : s.buffer.length < USB_BUFFER_CAPACITY)
    (hpos : 0 < min vals.length CCD_PIXEL_COUNT) :
    (usbStep s USB_FRAME_START).packets_received = 1 ∧
    (usbStep s USB_FRAME_START).last_frame_pixels =
      min vals.length CCD_PIXEL_COUNT ∧
    ∀ j, j < min vals.length CCD_PIXEL_COUNT →
      (usbStep s USB_FRAME_START).spectrum_data[j]? =
        some (vals.getD j 0) := by
  obtain ⟨h1, h2, h3, h4, h5, h6⟩ := ha
  rw [usbStep_start_publish s h1 (by omega) hcap]
  refine ⟨by simp [h3], by simp [h2], ?_⟩
  intro j hj
  show (publishCopy s.temp_pixels s.spectrum_data s.pixel_index)[j]? = _
  unfold publishCopy
  have hb : min s.pixel_index CCD_PIXEL_COUNT =
      min vals.length CCD_PIXEL_COUNT := by omega
  rw [hb, copyN_getElem _ _ _ _
    (by rw [h4]; simp only [List.length_replicate]; omega)]
  rw [if_pos hj, getD_eq_getElem?, h6 j hj]
  rfl

/-- C1 (amended): for a frame `0x11, r₁, …, r_K, 0x11` of K ≥ 1 complete
pixel records whose data bytes are not the frame-start marker `0x11`, the
decoder publishes exactly one frame whose received-sample count is
`min K CCD_PIXEL_COUNT`, each published sample being assembled little-endian
as `low | (high << 8)`. -/
theorem serial_frame_decode (rs : List (Nat × Nat)) (hne : rs ≠ [])
    (hdata : ∀ p ∈ rs, p.1 ≠ USB_FRAME_START ∧ p.2 ≠ USB_FRAME_START) :
    (usbRun (USB_FRAME_START ::
        (recordBytes rs ++ [USB_FRAME_START]))).packets_received = 1 ∧
    (usbRun (USB_FRAME_START ::
        (recordBytes rs ++ [USB_FRAME_START]))).last_frame_pixels =
      min rs.length CCD_PIXEL_COUNT ∧
    ∀ i, i < min rs.length CCD_PIXEL_COUNT →
      (usbRun (USB_FRAME_START ::
          (recordBytes rs ++ [USB_FRAME_START]))).spectrum_data[i]? =
        some (recordValue (rs.getD i (0, 0))) := by
  have h0 := accum_init
  have hrec := accum_records rs _ [] h0.2 h0.1 hdata
  have hlen : (([] : List Nat) ++ rs.map recordValue).length = rs.length := by
    simp
  have hpos : 0 < min (([] : List Nat) ++ rs.map recordValue).length
      CCD_PIXEL_COUNT := by
    rw [hlen]
    have := List.length_pos.mpr hne
    have hc : 0 < CCD_PIXEL_COUNT := by decide
    omega
  have hpub := accum_publish _ _ hrec.2 (by rw [hrec.1]; decide) hpos
  have hrw : usbRun (USB_FRAME_START :: (recordBytes rs ++ [USB_FRAME_START])) =
      usbStep (usbRunFrom (usbRunFrom initUsbState [USB_FRAME_START])
        (recordBytes rs)) USB_FRAME_START := by
    show usbRunFrom (usbStep initUsbState USB_FRAME_START)
        (recordBytes rs ++ [USB_FRAME_START]) = _
    rw [usbRunFrom_append]
    rfl
  rw [hrw]
  refine ⟨hpub.1, by rw [hpub.2.1, hlen], ?_⟩
  intro i hi
  have hi' : i < min (([] : List Nat) ++ rs.map recordValue).length
      CCD_PIXEL_COUNT := by rw [hlen]; exact hi
  rw [hpub.2.2 i hi']
  have hirs : i < rs.length := by omega
  simp only [List.nil_append]
  rw [getD_map_recordValue rs i hirs]

/-- Witness for C1 at the single record `(1, 2)`. -/
theorem serial_frame_decode_witness :
    (usbRun (USB_FRAME_START ::
        (recordBytes [(1, 2)] ++ [USB_FRAME_START]))).packets_received = 1 ∧
    (usbRun (USB_FRAME_START ::
        (recordBytes [(1, 2)] ++ [USB_FRAME_START]))).last_frame_pixels =
      min (List.length [((1 : Nat), (2 : Nat))]) CCD_PIXEL_COUNT ∧
    (usbRun (USB_FRAME_START ::
        (recordBytes [(1, 2)] ++ [USB_FRAME_START]))).spectrum_data[0]? =
      some (recordValue ((1, 2))) := by
  have h := serial_frame_decode [(1, 2)] (by decide) (by decide)
  exact ⟨h.1, h.2.1, by
    have := h.2.2 0 (by decide)
    simpa using this⟩

theorem getD_append_right_add (l1 l2 : List Nat) (j : Nat) :
    (l1 ++ l2).getD (l1.length + j) 0 = l2.getD j 0 := by
  simp only [List.getD, List.get?_eq_getElem?, List.getElem?_append]
  have hnot : ¬ (l1.length + j < l1.length) := by omega
  rw [if_neg hnot]
  have hidx : l1.length + j - l1.length = j := by omega
  rw [hidx]

theorem accum_record_after_junk (s : UsbState) (vals : List Nat)
    (x y z lo hi : Nat) (ha : Accum s vals) (hbuf : s.buffer = [x, y, z])
    (hx : x ≠ USB_PIXEL_START) (hy : y ≠ USB_PIXEL_START)
    (hz : z ≠ USB_PIXEL_START)
    (hlo : lo ≠ USB_FRAME_START) (hhi : hi ≠ USB_FRAME_START) :
    (usbRunFrom s [USB_PIXEL_START, lo, hi, USB_PIXEL_END]).buffer = [] ∧
    Accum (usbRunFrom s [USB_PIXEL_START, lo, hi, USB_PIXEL_END])
      (vals ++ [pixelValue lo hi]) := by
  obtain ⟨h1, h2, h3, h4, h5, h6⟩ := ha
  rw [run_record_after_junk s x y z lo hi hx hy hz hlo hhi h1 hbuf]
  by_cases hp : s.pixel_index < CCD_PIXEL_COUNT
  · rw [if_pos hp]
    refine ⟨rfl, h1, ?_, h3, h4, ?_, ?_⟩
    · simp only [List.length_append, List.length_cons, List.length_nil]
      omega
    · simpa using h5
    · intro j hj
      simp only [List.length_append, List.length_cons, List.length_nil] at hj
      rw [List.getElem?_set]
      by_cases hje : s.pixel_index = j
      · rw [if_pos hje, if_pos (by omega)]
        have hjv : j = vals.length := by omega
        rw [hjv, getD_append_len]
      · rw [if_neg hje]
        have hjlt : j < vals.length := by omega
        rw [h6 j (by omega), getD_append_lt _ _ _ hjlt]
  · rw [if_neg hp]
    refine ⟨rfl, h1, ?_, h3, h4, h5, ?_⟩
    · simp only [List.length_append, List.length_cons, List.length_nil]
      omega
    · intro j hj
      simp only [List.length_append, List.length_cons, List.length_nil] at hj
      rw [h6 j (by omega), getD_append_lt _ _ _ (by omega)]

theorem accum_publish_conclusions (s : UsbState)
    (pre post : List (Nat × Nat))
    (ha : Accum s (pre.map recordValue ++ post.map recordValue))
    (hcapb : s.buffer.length < USB_BUFFER_CAPACITY)
    (hlen : pre.length + post.length ≤ CCD_PIXEL_COUNT)
    (hpos : 0 < pre.length + post.length) :
    (usbStep s USB_FRAME_START).packets_received = 1 ∧
    (usbStep s USB_FRAME_START).last_frame_pixels =
      pre.length + post.length ∧
    (∀ i, i < pre.length →
      (usbStep s USB_FRAME_START).spectrum_data[i]? =
        some (recordValue (pre.getD i (0, 0)))) ∧
    (∀ j, j < post.length →
      (usbStep s USB_FRAME_START).spectrum_data[pre.length + j]? =
        some (recordValue (post.getD j (0, 0)))) := by
  have hvlen : (pre.map recordValue ++ post.map recordValue).length =
      pre.length + post.length := by
    simp
  have hmin : min (pre.map recordValue ++ post.map recordValue).length
      CCD_PIXEL_COUNT = pre.length + post.length := by
    rw [hvlen]; omega
  have hpub := accum_publish s _ ha hcapb (by rw [hmin]; omega)
  refine ⟨hpub.1, by rw [hpub.2.1, hmin], ?_, ?_⟩
  · intro i hi
    rw [hpub.2.2 i (by omega)]
    rw [getD_append_lt _ _ _ (by simpa using hi),
      getD_map_recordValue pre i hi]
  · intro j hj
    rw [hpub.2.2 (pre.length + j) (by omega)]
    have hpl : pre.length = (pre.map recordValue).length := by simp
    rw [hpl, getD_append_right_add, getD_map_recordValue post j hj]

/-- C7 (amended): a frame of K = `pre.length + 1 + post.length` records in
which exactly one record is corrupted in a single marker byte — its start
marker or its end marker replaced by a byte that is none of the three
protocol markers — with all data bytes distinct from the frame-start and
pixel-start markers, K ≤ capacity and at least one intact record.  Exactly
the corrupted record is skipped: the published frame holds
`pre.length + post.length` samples, the records before the corruption at
their original indices and the records after it shifted down by one
(resynchronization discards at most the 3 residual bytes of the corrupted
record, so alignment is preserved). -/
theorem serial_resync_single_corruption
    (pre post : List (Nat × Nat)) (lo hi c : Nat) (cb : List Nat)
    (hcb : cb = [c, lo, hi, USB_PIXEL_END] ∨
      cb = [USB_PIXEL_START, lo, hi, c])
    (hc : c ≠ USB_FRAME_START ∧ c ≠ USB_PIXEL_START ∧ c ≠ USB_PIXEL_END)
    (hlo : lo ≠ USB_FRAME_START ∧ lo ≠ USB_PIXEL_START)
    (hhi : hi ≠ USB_FRAME_START ∧ hi ≠ USB_PIXEL_START)
    (hpre : ∀ p ∈ pre, p.1 ≠ USB_FRAME_START ∧ p.2 ≠ USB_FRAME_START)
    (hpost : ∀ p ∈ post, p.1 ≠ USB_FRAME_START ∧ p.2 ≠ USB_FRAME_START)
    (hlen : pre.length + post.length + 1 ≤ CCD_PIXEL_COUNT)
    (hpos : 0 < pre.length + post.length) :
    (usbRun (USB_FRAME_START :: (recordBytes pre ++ cb ++ recordBytes post ++
        [USB_FRAME_START]))).packets_received = 1 ∧
    (usbRun (USB_FRAME_START :: (recordBytes pre ++ cb ++ recordBytes post ++
        [USB_FRAME_START]))).last_frame_pixels =
      pre.length + post.length ∧
    (∀ i, i < pre.length →
      (usbRun (USB_FRAME_START :: (recordBytes pre ++ cb ++
          recordBytes post ++ [USB_FRAME_START]))).spectrum_data[i]? =
        some (recordValue (pre.getD i (0, 0)))) ∧
    (∀ j, j < post.length →
      (usbRun (USB_FRAME_START :: (recordBytes pre ++ cb ++
          recordBytes post ++
          [USB_FRAME_START]))).spectrum_data[pre.length + j]? =
        some (recordValue (post.getD j (0, 0)))) := by
  have hrw : usbRun (USB_FRAME_START :: (recordBytes pre ++ cb ++
      recordBytes post ++ [USB_FRAME_START])) =
      usbStep (usbRunFrom (usbRunFrom (usbRunFrom
        (usbRunFrom initUsbState [USB_FRAME_START])
        (recordBytes pre)) cb) (recordBytes post)) USB_FRAME_START := by
    show usbRunFrom (usbStep initUsbState USB_FRAME_START)
        (recordBytes pre ++ cb ++ recordBytes post ++ [USB_FRAME_START]) = _
    rw [usbRunFrom_append, usbRunFrom_append, usbRunFrom_append]
    rfl
  rw [hrw]
  have h0 := accum_init
  have hpreA := accum_records pre _ [] h0.2 h0.1 hpre
  simp only [List.nil_append] at hpreA
  rcases hcb with hcb | hcb <;> subst hcb
  · -- start marker corrupted: the whole 4-byte group is discarded
    have hBc := run_corrupt_start _ c lo hi hc.1 hc.2.1 hlo.1 hlo.2 hhi.1
      hhi.2 hpreA.2.1 hpreA.1
    rw [hBc]
    have hAcc2 : Accum { usbRunFrom (usbRunFrom initUsbState
        [USB_FRAME_START]) (recordBytes pre) with buffer := [] }
        (pre.map recordValue) := hpreA.2
    have hpostA := accum_records post _ _ hAcc2 rfl hpost
    exact accum_publish_conclusions _ pre post hpostA.2
      (by rw [hpostA.1]; decide) (by omega) hpos
  · -- end marker corrupted: the residual bytes `lo hi c` are flushed when
    -- the next start marker arrives
    have hBc := run_corrupt_end _ lo hi c hlo.1 hhi.1 hc.1 hc.2.2
      hpreA.2.1 hpreA.1
    rw [hBc]
    cases post with
    | nil =>
        have hAcc2 : Accum { usbRunFrom (usbRunFrom initUsbState
            [USB_FRAME_START]) (recordBytes pre) with buffer := [lo, hi, c] }
            (pre.map recordValue) := hpreA.2
        have hAcc3 : Accum { usbRunFrom (usbRunFrom initUsbState
            [USB_FRAME_START]) (recordBytes pre) with buffer := [lo, hi, c] }
            (pre.map recordValue ++ List.map recordValue []) := by
          simpa using hAcc2
        refine accum_publish_conclusions _ pre [] hAcc3 ?_ ?_ ?_
        · simp [usbRunFrom, recordBytes, USB_BUFFER_CAPACITY]
        · simp only [List.length_nil]
          omega
        · simpa using hpos
    | cons r post' =>
        obtain ⟨lo2, hi2⟩ := r
        have hsplit : recordBytes ((lo2, hi2) :: post') =
            [USB_PIXEL_START, lo2, hi2, USB_PIXEL_END] ++
              recordBytes post' := rfl
        rw [hsplit, usbRunFrom_append]
        have hAcc2 : Accum { usbRunFrom (usbRunFrom initUsbState
            [USB_FRAME_START]) (recordBytes pre) with buffer := [lo, hi, c] }
            (pre.map recordValue) := hpreA.2
        have hbridge := accum_record_after_junk _ (pre.map recordValue)
          lo hi c lo2 hi2 hAcc2 rfl hlo.2 hhi.2 hc.2.1
          (hpost (lo2, hi2) (by simp)).1 (hpost (lo2, hi2) (by simp)).2
        have hrest := accum_records post' _ _ hbridge.2 hbridge.1
          (fun p hp => hpost p (by simp [hp]))
        have hveq : (pre.map recordValue ++ [pixelValue lo2 hi2]) ++
            post'.map recordValue =
            pre.map recordValue ++
              List.map recordValue ((lo2, hi2) :: post') := by
          simp only [List.map_cons, List.append_assoc, List.singleton_append]
          rfl
        rw [hveq] at hrest
        refine accum_publish_conclusions _ pre ((lo2, hi2) :: post')
          hrest.2 (by rw [hrest.1]; decide) ?_ ?_
        · simp only [List.length_cons] at hlen ⊢
          omega
        · simp only [List.length_cons] at hpos ⊢
          omega

/-- Witness for C7: frame `11 | 00 03 04 5A | A5 01 02 5A | 11` (first
record's start marker corrupted to `0x00`): one published frame holding only
the intact record's value, at index 0. -/
theorem serial_resync_single_corruption_witness :
    (usbRun (USB_FRAME_START :: (recordBytes [] ++ [0, 3, 4, USB_PIXEL_END] ++
        recordBytes [(1, 2)] ++ [USB_FRAME_START]))).packets_received = 1 ∧
    (usbRun (USB_FRAME_START :: (recordBytes [] ++ [0, 3, 4, USB_PIXEL_END] ++
        recordBytes [(1, 2)] ++ [USB_FRAME_START]))).last_frame_pixels = 1 ∧
    (usbRun (USB_FRAME_START :: (recordBytes [] ++ [0, 3, 4, USB_PIXEL_END] ++
        recordBytes [(1, 2)] ++ [USB_FRAME_START]))).spectrum_data[0]? =
      some (recordValue (1, 2)) := by
  have h := serial_resync_single_corruption [] [(1, 2)] 3 4 0
    [0, 3, 4, USB_PIXEL_END] (Or.inl rfl) (by decide) (by decide) (by decide)
    (by simp) (by decide) (by decide) (by decide)
  refine ⟨h.1, by simpa using h.2.1, ?_⟩
  have h4 := h.2.2.2 0 (by decide)
  simpa using h4

end TCD1304
